import Mathlib

/-!
Shallow embedding of `dynpool.DynamicPoolResizer` (dynpool 1.0, file
`dynpool.py`).

The pool counters (`size`, `idle`, `min`, `max`, `qsize`) and the resizer
configuration (`minspare`, `maxspare`, `shrinkfreq`) are Python integers,
modelled as `Int`.  Timestamps (`time.time()` results and `lastshrink`)
are modelled as `Int` as well; the current time is passed explicitly as a
`now` argument to the operations that read the clock.

Side effects are made explicit: every operation returns, besides its
value, the list of externally visible events it emits (log messages and
calls into the pool's `grow`/`shrink` capabilities) and the resizer state
after the operation.  The pool's `shrink` capability may raise; this is
modelled by a boolean `ok` argument: when `ok = false` the call raises
and the statements after it do not execute.
-/

namespace Dynpool

/-- A snapshot of the pool counters read through the pool interface:
`size`, `min`, `max`, `idle`, `qsize`. -/
structure Pool where
  size : Int
  min : Int
  max : Int
  idle : Int
  qsize : Int
deriving DecidableEq

/-- The `DynamicPoolResizer` state: configuration `minspare`, `maxspare`,
`shrinkfreq` and the mutable `lastshrink` timestamp (`none` models Python's
`None`). -/
structure Resizer where
  minspare : Int
  maxspare : Int
  shrinkfreq : Int
  lastshrink : Option Int
deriving DecidableEq

/-- `__init__`: stores the configuration and sets `lastshrink = None`. -/
def Resizer.init (minspare maxspare shrinkfreq : Int) : Resizer :=
  { minspare := minspare, maxspare := maxspare, shrinkfreq := shrinkfreq,
    lastshrink := none }

/-- Externally visible events: a message passed to the logging callback, or a
call into the pool's `grow`/`shrink` capability with a given amount. -/
inductive Event where
  | log (msg : String)
  | poolGrow (amount : Int)
  | poolShrink (amount : Int)
deriving DecidableEq

/-- `action_log(action, amount)`: the single log event it emits, built from
the format string
`'Thread pool: [current=\x7b0\x7d/idle=\x7b1\x7d/queue=\x7b2\x7d] \x7b3\x7d by \x7b4\x7d'`. -/
def action_log (p : Pool) (action : String) (amount : Int) : Event :=
  Event.log ("Thread pool: [current=" ++ toString p.size ++ "/idle="
    ++ toString p.idle ++ "/queue=" ++ toString p.qsize ++ "] "
    ++ action ++ " by " ++ toString amount)

/-- `int(math.ceil(x / 2.0))` for an integer `x`: the ceiling of `x / 2`,
written with integer floor division. -/
def ceil_half (x : Int) : Int := -((-x) / 2)

/-- The `grow_value` property, with its effects explicit: it returns the
computed `growby` together with the log events it emits, and threads the
resizer state through (the property only reads attributes, never assigns
them).  Branches, in source order:
`0 < pool_max <= pool_size or pool_idle > maxspare` gives 0;
`not pool_idle and pool.qsize` logs a warning and gives `maxspare`;
otherwise `max(0, pool_min - pool_size, self.minspare - pool_idle)`.
Python truthiness on integers: `not pool_idle` is `pool_idle = 0` and
`pool.qsize` is `pool.qsize ≠ 0`. -/
def grow_value_run (r : Resizer) (p : Pool) : (Int × List Event) × Resizer :=
  if 0 < p.max ∧ p.max ≤ p.size ∨ p.idle > r.maxspare then
    ((0, []), r)
  else if p.idle = 0 ∧ p.qsize ≠ 0 then
    ((r.maxspare, [Event.log "Threads exhausted and connection queue not empty!"]), r)
  else
    ((max 0 (max (p.min - p.size) (r.minspare - p.idle)), []), r)

/-- The value of the `grow_value` property. -/
def grow_value (r : Resizer) (p : Pool) : Int := (grow_value_run r p).1.1

/-- The `grow(growby)` method: logs the action, then calls the pool's `grow`
capability.  It assigns no resizer attribute. -/
def grow (r : Resizer) (p : Pool) (growby : Int) : Resizer × List Event :=
  (r, [action_log p "Growing" growby, Event.poolGrow growby])

/-- `can_shrink()`: `not last or time.time() - last > self.shrinkfreq`.
Python truthiness: `not last` is true when `last` is `None` and also when it
is the number `0`. -/
def can_shrink (now : Int) (r : Resizer) : Bool :=
  match r.lastshrink with
  | none => true
  | some l => decide (l = 0) || decide (r.shrinkfreq < now - l)

/-- The `shrink_value` property.  Branches, in source order:
all idle and quiet (`pool_size > pool_min and pool_size == pool_idle and
not pool_qsize`) gives `min(pool_size - pool_min, pool_idle - minspare)`;
`pool_idle > self.maxspare` gives `pool_idle - self.maxspare`;
`pool_idle > minspare and not pool_qsize` gives
`int(math.ceil((pool_idle - minspare) / 2.0))`; otherwise 0. -/
def shrink_value (r : Resizer) (p : Pool) : Int :=
  if p.size > p.min ∧ p.size = p.idle ∧ p.qsize = 0 then
    min (p.size - p.min) (p.idle - r.minspare)
  else if p.idle > r.maxspare then
    p.idle - r.maxspare
  else if p.idle > r.minspare ∧ p.qsize = 0 then
    ceil_half (p.idle - r.minspare)
  else
    0

/-- The `shrink(shrinkby)` method: logs the action, calls the pool's
`shrink` capability, and then assigns `self.lastshrink = time.time()`.
When the pool call raises (`ok = false`), the assignment does not run. -/
def shrink (now : Int) (r : Resizer) (p : Pool) (ok : Bool) (shrinkby : Int) :
    Resizer × List Event :=
  let events := [action_log p "Shrinking" shrinkby, Event.poolShrink shrinkby]
  if ok then ({ r with lastshrink := some now }, events)
  else (r, events)

/-- The `run()` method (body under `self._mutex`):
read `grow_value`; if truthy, `self.grow(grow_value)`;
elif `self.can_shrink()`: read `shrink_value`; if truthy,
`self.shrink(shrink_value)`.  Python truthiness on integers is `≠ 0`. -/
def run (now : Int) (r : Resizer) (p : Pool) (ok : Bool) : Resizer × List Event :=
  let gv := grow_value_run r p
  if gv.1.1 ≠ 0 then
    let g := grow gv.2 p gv.1.1
    (g.1, gv.1.2 ++ g.2)
  else if can_shrink now gv.2 then
    let sv := shrink_value gv.2 p
    if sv ≠ 0 then
      let s := shrink now gv.2 p ok sv
      (s.1, gv.1.2 ++ s.2)
    else (gv.2, gv.1.2)
  else (gv.2, gv.1.2)

/-- `shrink_value` as §4.1 of the design document words it, with the slow
decay branch written as a true ceiling of a rational division:
`ceil((idle − minspare) / 2)`. -/
def shrink_value_spec (r : Resizer) (p : Pool) : Int :=
  if p.size > p.min ∧ p.size = p.idle ∧ p.qsize = 0 then
    min (p.size - p.min) (p.idle - r.minspare)
  else if p.idle > r.maxspare then
    p.idle - r.maxspare
  else if p.idle > r.minspare ∧ p.qsize = 0 then
    ⌈((p.idle - r.minspare : Int) : ℚ) / 2⌉
  else
    0

end Dynpool

namespace Dynpool

/-! Helper lemmas shared by the claim theorems. -/

/-- Evaluating `grow_value` threads the resizer state through unchanged. -/
theorem grow_value_run_state (r : Resizer) (p : Pool) :
    (grow_value_run r p).2 = r := by
  unfold grow_value_run
  split
  · rfl
  · split <;> rfl

/-- The event trace of `grow_value` is empty or the single exhaustion
warning. -/
theorem grow_value_run_events (r : Resizer) (p : Pool) :
    (grow_value_run r p).1.2 = [] ∨
      (grow_value_run r p).1.2 =
        [Event.log "Threads exhausted and connection queue not empty!"] := by
  unfold grow_value_run
  split
  · exact Or.inl rfl
  · split
    · exact Or.inr rfl
    · exact Or.inl rfl

/-- `grow_value` never emits a call to the pool's `grow` capability. -/
theorem poolGrow_not_mem_grow_value_run (r : Resizer) (p : Pool) (a : Int) :
    Event.poolGrow a ∉ (grow_value_run r p).1.2 := by
  rcases grow_value_run_events r p with h | h <;> rw [h] <;> simp

/-- `grow_value` never emits a call to the pool's `shrink` capability. -/
theorem poolShrink_not_mem_grow_value_run (r : Resizer) (p : Pool) (a : Int) :
    Event.poolShrink a ∉ (grow_value_run r p).1.2 := by
  rcases grow_value_run_events r p with h | h <;> rw [h] <;> simp

/-- `ceil_half` is the ceiling of the rational division by two. -/
theorem ceil_half_eq_ceil (x : Int) : ceil_half x = ⌈(x : ℚ) / 2⌉ := by
  have h : ⌊(((-x : Int) : ℚ) / ((2 : ℕ) : ℚ))⌋ = (-x) / (2 : Int) :=
    Rat.floor_intCast_div_natCast (-x) 2
  have e : ((x : ℚ) / 2) = -(((-x : Int) : ℚ) / ((2 : ℕ) : ℚ)) := by
    push_cast
    ring
  rw [ceil_half, e, Int.ceil_neg, h]

/-- C1: if `max > 0` and `size ≥ max`, or `idle > maxspare`, then
`grow_value` is 0, whatever the other counters are: the ceiling/ample-idle
check is the first branch taken. -/
theorem grow_value_ceiling_or_ample_idle_zero (r : Resizer) (p : Pool)
    (h : (0 < p.max ∧ p.max ≤ p.size) ∨ p.idle > r.maxspare) :
    grow_value r p = 0 := by
  simp only [grow_value, grow_value_run]
  rw [if_pos h]

/-- Witness for C1 at a snapshot that is at the ceiling while both
`min > size` would not hold and the exhaustion signals (`idle = 0`,
`qsize > 0`) do hold. -/
theorem grow_value_ceiling_or_ample_idle_zero_witness :
    (((0 : Int) < 30 ∧ (30 : Int) ≤ 30) ∨ (0 : Int) > 10) ∧
      grow_value (Resizer.init 5 10 5) ⟨30, 5, 30, 0, 7⟩ = 0 :=
  ⟨by decide, grow_value_ceiling_or_ample_idle_zero _ _ (by decide)⟩

/-- C2: with `idle = 0`, a non-empty queue, no ceiling cutoff and a
non-negative configured `maxspare`, `grow_value` is exactly `maxspare`,
independent of `qsize` magnitude and of `min`. -/
theorem grow_value_exhaustion_returns_maxspare (r : Resizer) (p : Pool)
    (hidle : p.idle = 0) (hq : 0 < p.qsize)
    (hmax : p.max ≤ 0 ∨ p.size < p.max) (hms : 0 ≤ r.maxspare) :
    grow_value r p = r.maxspare := by
  simp only [grow_value, grow_value_run]
  rw [if_neg (by omega), if_pos (show p.idle = 0 ∧ p.qsize ≠ 0 from ⟨hidle, by omega⟩)]

/-- Witness for C2 at the spec's concrete scenario
`min=5, max=-1, size=1048576, idle=0, qsize=100, minspare=5, maxspare=20`. -/
theorem grow_value_exhaustion_returns_maxspare_witness :
    grow_value (Resizer.init 5 20 5) ⟨1048576, 5, -1, 0, 100⟩ = 20 :=
  grow_value_exhaustion_returns_maxspare _ _ (by decide) (by decide)
    (Or.inl (by decide)) (by decide)

/-- C3: outside the ceiling/ample-idle case and the exhaustion case,
`grow_value` is `max(0, min − size, minspare − idle)`, which is never
negative. -/
theorem grow_value_fallback_formula (r : Resizer) (p : Pool)
    (hq : 0 ≤ p.qsize)
    (h1 : ¬((0 < p.max ∧ p.max ≤ p.size) ∨ p.idle > r.maxspare))
    (h2 : ¬(p.idle = 0 ∧ 0 < p.qsize)) :
    grow_value r p = max 0 (max (p.min - p.size) (r.minspare - p.idle)) ∧
      0 ≤ grow_value r p := by
  have key : grow_value r p = max 0 (max (p.min - p.size) (r.minspare - p.idle)) := by
    simp only [grow_value, grow_value_run]
    rw [if_neg h1, if_neg (by omega)]
  exact ⟨key, by rw [key]; exact le_max_left 0 _⟩

/-- Witness for C3 at `min=5, max=30, size=10, idle=2, qsize=0` with
`minspare=5, maxspare=10`: the fallback gives `max(0, −5, 3) = 3 ≥ 0`. -/
theorem grow_value_fallback_formula_witness :
    grow_value (Resizer.init 5 10 5) ⟨10, 5, 30, 2, 0⟩ =
        max 0 (max ((5 : Int) - 10) ((5 : Int) - 2)) ∧
      0 ≤ grow_value (Resizer.init 5 10 5) ⟨10, 5, 30, 2, 0⟩ :=
  grow_value_fallback_formula _ _ (by decide) (by decide) (by decide)

/-- C4: `shrink_value` is given branch by branch, in order, by the design
document's description: all-idle-and-quiet, then excess over `maxspare`,
then half the headroom above `minspare` rounded up (a true rational
ceiling), else 0. -/
theorem shrink_value_branch_structure (r : Resizer) (p : Pool) :
    shrink_value r p = shrink_value_spec r p := by
  simp only [shrink_value, shrink_value_spec, ceil_half_eq_ceil]

end Dynpool

namespace Dynpool

/-- `run` calls the pool's `shrink` capability exactly when `grow_value` is
zero, `can_shrink()` holds and `shrink_value` is nonzero, and then the
amount is `shrink_value`. -/
theorem run_poolShrink_mem_iff (now : Int) (r : Resizer) (p : Pool) (ok : Bool) (a : Int) :
    Event.poolShrink a ∈ (run now r p ok).2 ↔
      grow_value r p = 0 ∧ can_shrink now r = true ∧ shrink_value r p ≠ 0 ∧
        a = shrink_value r p := by
  simp only [run, grow_value_run_state, grow_value]
  by_cases hg : (grow_value_run r p).1.1 = 0 <;>
    by_cases hc : can_shrink now r = true <;>
    by_cases hs : shrink_value r p = 0 <;>
    cases ok <;>
    simp [hg, hc, hs, grow, shrink, action_log,
      poolShrink_not_mem_grow_value_run r p a]

/-- `run` calls the pool's `grow` capability exactly when `grow_value` is
nonzero, and then the amount is `grow_value`. -/
theorem run_poolGrow_mem_iff (now : Int) (r : Resizer) (p : Pool) (ok : Bool) (a : Int) :
    Event.poolGrow a ∈ (run now r p ok).2 ↔
      grow_value r p ≠ 0 ∧ a = grow_value r p := by
  simp only [run, grow_value_run_state, grow_value]
  by_cases hg : (grow_value_run r p).1.1 = 0 <;>
    by_cases hc : can_shrink now r = true <;>
    by_cases hs : shrink_value r p = 0 <;>
    cases ok <;>
    simp [hg, hc, hs, grow, shrink, action_log,
      poolGrow_not_mem_grow_value_run r p a]

/-- The resizer state after `run`: `lastshrink` is set to the current time
exactly when a shrink was performed and the pool call returned. -/
theorem run_state (now : Int) (r : Resizer) (p : Pool) (ok : Bool) :
    (run now r p ok).1 =
      if grow_value r p = 0 ∧ can_shrink now r = true ∧ shrink_value r p ≠ 0 ∧ ok = true
      then { r with lastshrink := some now } else r := by
  simp only [run, grow_value_run_state, grow_value]
  by_cases hg : (grow_value_run r p).1.1 = 0 <;>
    by_cases hc : can_shrink now r = true <;>
    by_cases hs : shrink_value r p = 0 <;>
    cases ok <;>
    simp [hg, hc, hs, grow, shrink]

/-- When `grow_value` is nonzero, `run` is the grow action, whatever the
clock and the pool's shrink outcome are. -/
theorem run_grow_case (now : Int) (r : Resizer) (p : Pool) (ok : Bool)
    (h : grow_value r p ≠ 0) :
    run now r p ok =
      (r, (grow_value_run r p).1.2 ++
        [action_log p "Growing" (grow_value r p), Event.poolGrow (grow_value r p)]) := by
  simp only [run, grow_value_run_state, grow_value] at h ⊢
  rw [if_pos h]
  rfl

end Dynpool

namespace Dynpool

/-- C5 counterexample: at the snapshot `size=3, min=0, max=3, idle=3,
qsize=0` with `minspare=5, maxspare=10` (both non-negative), `run` passes
the negative amount −2 to the pool's `shrink` capability: the truthiness
check `if shrink_value:` does not treat the negative branch-1 value as 0. -/
theorem run_calls_shrink_with_negative_amount :
    Event.poolShrink (-2) ∈ (run 0 (Resizer.init 5 10 5) ⟨3, 0, 3, 3, 0⟩ true).2 ∧
      (-2 : Int) < 0 := by
  decide

/-- C5 amended: whenever `run` invokes the pool's `shrink` capability, the
amount passed is `shrink_value`, and it is nonzero — but it is not
necessarily non-negative: the caller's truthiness check only filters out a
zero `shrink_value`, so a negative branch-1 value is passed through. -/
theorem run_shrink_amount_is_nonzero_shrink_value (now : Int) (r : Resizer)
    (p : Pool) (ok : Bool) (a : Int)
    (h : Event.poolShrink a ∈ (run now r p ok).2) :
    a = shrink_value r p ∧ a ≠ 0 := by
  rcases (run_poolShrink_mem_iff now r p ok a).mp h with ⟨-, -, hs, ha⟩
  exact ⟨ha, ha ▸ hs⟩

/-- Witness for the amended C5: the amount −2 passed by `run` at the
counterexample snapshot is that snapshot's `shrink_value`, and nonzero. -/
theorem run_shrink_amount_is_nonzero_shrink_value_witness :
    (-2 : Int) = shrink_value (Resizer.init 5 10 5) ⟨3, 0, 3, 3, 0⟩ ∧
      (-2 : Int) ≠ 0 :=
  run_shrink_amount_is_nonzero_shrink_value 0 _ _ true (-2) (by decide)

/-- C6: in one invocation of `run`, never both a grow call and a shrink
call; a nonzero `grow_value` forces the grow call and makes the result
independent of the clock and of the shrink outcome (the shrink side is not
even evaluated); with `grow_value = 0`, a shrink call happens exactly when
`can_shrink()` holds and `shrink_value` is nonzero. -/
theorem run_at_most_one_action (now : Int) (r : Resizer) (p : Pool) (ok : Bool) :
    (¬((∃ a, Event.poolGrow a ∈ (run now r p ok).2) ∧
        (∃ b, Event.poolShrink b ∈ (run now r p ok).2)))
    ∧ (grow_value r p ≠ 0 →
        Event.poolGrow (grow_value r p) ∈ (run now r p ok).2 ∧
          ∀ now2 ok2, run now2 r p ok2 = run now r p ok)
    ∧ (grow_value r p = 0 →
        ((∃ b, Event.poolShrink b ∈ (run now r p ok).2) ↔
          can_shrink now r = true ∧ shrink_value r p ≠ 0)) := by
  refine ⟨?_, ?_, ?_⟩
  · rintro ⟨⟨a, ha⟩, ⟨b, hb⟩⟩
    exact ((run_poolGrow_mem_iff now r p ok a).mp ha).1
      ((run_poolShrink_mem_iff now r p ok b).mp hb).1
  · intro hg
    refine ⟨(run_poolGrow_mem_iff now r p ok _).mpr ⟨hg, rfl⟩, fun now2 ok2 => ?_⟩
    rw [run_grow_case now r p ok hg, run_grow_case now2 r p ok2 hg]
  · intro hg
    constructor
    · rintro ⟨b, hb⟩
      rcases (run_poolShrink_mem_iff now r p ok b).mp hb with ⟨-, hc, hs, -⟩
      exact ⟨hc, hs⟩
    · rintro ⟨hc, hs⟩
      exact ⟨_, (run_poolShrink_mem_iff now r p ok _).mpr ⟨hg, hc, hs, rfl⟩⟩

/-- Witness for C6 at a snapshot below the minimum size: `grow_value = 5`,
and `run` emits the grow call. -/
theorem run_at_most_one_action_witness :
    Event.poolGrow 5 ∈ (run 0 (Resizer.init 5 10 5) ⟨0, 5, 30, 0, 0⟩ true).2 :=
  ((run_at_most_one_action 0 (Resizer.init 5 10 5) ⟨0, 5, 30, 0, 0⟩ true).2.1
    (by decide)).1

/-- C7: `can_shrink()` is true when no shrink has ever occurred; after a
shrink at a (positive) timestamp `l`, it is true exactly when the elapsed
time strictly exceeds `shrinkfreq` — at exactly `shrinkfreq` it is still
false. -/
theorem can_shrink_characterization (now : Int) (r : Resizer) :
    (r.lastshrink = none → can_shrink now r = true)
    ∧ (∀ l, r.lastshrink = some l → 0 < l →
        (can_shrink now r = true ↔ r.shrinkfreq < now - l))
    ∧ (∀ l, r.lastshrink = some l → 0 < l → now - l = r.shrinkfreq →
        can_shrink now r = false) := by
  refine ⟨fun h => ?_, fun l hl hlpos => ?_, fun l hl hlpos helapsed => ?_⟩
  · simp [can_shrink, h]
  · simp only [can_shrink, hl, Bool.or_eq_true, decide_eq_true_eq]
    omega
  · simp only [can_shrink, hl, Bool.or_eq_false_iff, decide_eq_false_iff_not]
    omega

/-- Witness for C7: with `lastshrink = 10` and `shrinkfreq = 5`, at time 15
(exactly `shrinkfreq` elapsed) shrinking is not yet permitted. -/
theorem can_shrink_characterization_witness :
    can_shrink 15
      { minspare := 5, maxspare := 10, shrinkfreq := 5, lastshrink := some 10 } = false :=
  (can_shrink_characterization 15 _).2.2 10 rfl (by decide) (by decide)

/-- C8: `shrink` records the timestamp into `lastshrink` only after the
pool call returns — a raising pool call leaves `lastshrink`, and hence
`can_shrink()`, unchanged — and the grow path never writes `lastshrink`. -/
theorem shrink_sets_lastshrink_after_pool_call (now : Int) (r : Resizer) (p : Pool) (a : Int) :
    ((shrink now r p true a).1.lastshrink = some now)
    ∧ ((shrink now r p false a).1.lastshrink = r.lastshrink)
    ∧ (∀ t, can_shrink t (shrink now r p false a).1 = can_shrink t r)
    ∧ (∀ b, (grow r p b).1.lastshrink = r.lastshrink) :=
  ⟨rfl, rfl, fun _ => rfl, fun _ => rfl⟩

end Dynpool

namespace Dynpool

/-- C9 counterexample: at `size=1, min=5, max=30, idle=0, qsize=1` with
`minspare=5, maxspare=10`, evaluating `grow_value` invokes the logging
collaborator (the exhaustion warning), so the evaluation is not free of
calls to the logger. -/
theorem grow_value_run_logs_on_exhaustion :
    (grow_value_run (Resizer.init 5 10 5) ⟨1, 5, 30, 0, 1⟩).1.2 ≠ [] := by
  decide

/-- C9 amended: evaluating `grow_value` leaves the resizer state (including
`lastshrink`) unchanged and never calls the pool's `grow` or `shrink`
capabilities, but it does invoke the logging collaborator — exactly when
the exhaustion branch is taken (no ceiling/ample-idle cutoff, `idle = 0`
and a non-empty queue). -/
theorem grow_value_run_effects (r : Resizer) (p : Pool) :
    (grow_value_run r p).2 = r
    ∧ (∀ a : Int, Event.poolGrow a ∉ (grow_value_run r p).1.2
        ∧ Event.poolShrink a ∉ (grow_value_run r p).1.2)
    ∧ ((grow_value_run r p).1.2 ≠ [] ↔
        ¬((0 < p.max ∧ p.max ≤ p.size) ∨ p.idle > r.maxspare)
          ∧ p.idle = 0 ∧ p.qsize ≠ 0) := by
  refine ⟨grow_value_run_state r p,
    fun a => ⟨poolGrow_not_mem_grow_value_run r p a,
      poolShrink_not_mem_grow_value_run r p a⟩, ?_⟩
  unfold grow_value_run
  split
  · next hc => exact iff_of_false (by simp) fun hx => hx.1 hc
  · next hc =>
    split
    · next he => exact iff_of_true (by simp) ⟨hc, he⟩
    · next he => exact iff_of_false (by simp) fun hx => he hx.2

/-- Witness for the amended C9: at an exhausted snapshot the
characterization yields a non-empty log trace. -/
theorem grow_value_run_effects_witness :
    (grow_value_run (Resizer.init 2 7 9) ⟨4, 2, 30, 0, 3⟩).1.2 ≠ [] :=
  (grow_value_run_effects (Resizer.init 2 7 9) ⟨4, 2, 30, 0, 3⟩).2.2.mpr (by decide)

/-- C10: `run` leaves `lastshrink` unchanged whenever `grow_value` is
nonzero, or `can_shrink()` is false, or `shrink_value` is zero; and
construction sets `lastshrink` to absent. -/
theorem run_preserves_lastshrink_without_shrink (now : Int) (r : Resizer)
    (p : Pool) (ok : Bool)
    (h : grow_value r p ≠ 0 ∨ can_shrink now r = false ∨ shrink_value r p = 0) :
    (run now r p ok).1.lastshrink = r.lastshrink
    ∧ ∀ ms mx sf, (Resizer.init ms mx sf).lastshrink = none := by
  refine ⟨?_, fun ms mx sf => rfl⟩
  rw [run_state]
  rw [if_neg ?_]
  rintro ⟨h1, h2, h3, -⟩
  rcases h with h | h | h
  · exact h h1
  · rw [h2] at h
    cases h
  · exact h3 h

/-- Witness for C10 at a quiet snapshot (`grow_value = 0`, `can_shrink`
true, `shrink_value = 0`): `run` keeps `lastshrink` at its initial
absent value. -/
theorem run_preserves_lastshrink_without_shrink_witness :
    (run 0 (Resizer.init 5 10 5) ⟨20, 5, 30, 5, 0⟩ true).1.lastshrink = none :=
  (run_preserves_lastshrink_without_shrink 0 _ _ true
    (Or.inr (Or.inr (by decide)))).1

end Dynpool
